import Mathlib

/-!
Verification development for the Bing satellite imagery downloader
(files bing_download.py and calculate_bounding_box.py).

The development shallowly embeds the two source files:

* bing_download.py: lat/lon values are modelled as exact rationals (the
  script performs only field arithmetic on them); pixel coordinates are
  natural numbers (the tile system returns clipped non-negative integers);
  the external collaborators (the Mercator projection of the imported
  TileSystem module, the HTTP tile fetch, and the placeholder-tile check)
  are fields of an explicit environment `Env`, so every theorem quantifies
  over all of their possible behaviours.  The return value of each Python
  function is modelled exactly (`Option Bool`, with `none` standing for an
  uncaught exception), together with the I/O traces (quadkeys fetched,
  rasters saved) as data.
* calculate_bounding_box.py: exact real arithmetic, with `Real.cos` and
  `Real.pi` standing for `math.cos` / `math.pi`.
-/

set_option autoImplicit false

/-- Modelled from the spec: TileSystem.MAXLEVEL, the finest zoom level
(MAXLEVEL = 23 in the reference scheme).  The TileSystem module is imported
by bing_download.py but is not part of the repository sources. -/
def TileSystem.MAXLEVEL : ℕ := 23

/-- Modelled from the spec: TileSystem.map_size, the pixel-space size at a
level: 256 × 2^level. -/
def TileSystem.map_size (level : ℕ) : ℕ := 256 * 2 ^ level

/-- Modelled from the spec: TileSystem.clip, the standard clamp
min(max(value, lo), hi), here on rationals (the Python code applies it to
floats). -/
def TileSystem.clip (value lo hi : ℚ) : ℚ := min (max value lo) hi

/-- Modelled from the spec: TileSystem.pixelXY_to_tileXY, integer division
of each pixel coordinate by 256 (tile edge length), independent of level. -/
def TileSystem.pixelXY_to_tileXY (pixelX pixelY : ℕ) : ℕ × ℕ :=
  (pixelX / 256, pixelY / 256)

/-- Modelled from the spec: TileSystem.tileXY_to_quadkey; one base-4 digit
per level, most significant bit first, digit = 2×bit(tileY) + bit(tileX). -/
def TileSystem.tileXY_to_quadkey (tileX tileY level : ℕ) : List ℕ :=
  (List.range level).reverse.map (fun i => 2 * (tileY / 2 ^ i % 2) + tileX / 2 ^ i % 2)

/-- A raster image in the style of PIL: a width, a height (integers, since
the Python code computes the requested size with possibly negative integer
arithmetic before handing it to Image.new) and the pixel contents, indexed
by (x, y) from the top-left corner.  Pixel values are abstracted as natural
numbers. -/
structure Img where
  w : ℤ
  h : ℤ
  pix : ℕ → ℕ → ℕ

instance : Inhabited Img := ⟨⟨0, 0, fun _ _ => 0⟩⟩

/-- PIL Image.new: a black (all-zero) image of the requested size.
Image.new raises ValueError on a negative width or height, modelled by
`none`; a zero width or height is accepted. -/
def imageNew (w h : ℤ) : Option Img :=
  if 0 ≤ w ∧ 0 ≤ h then some ⟨w, h, fun _ _ => 0⟩ else none

/-- PIL Image.paste dst.paste(src, (ox, oy)): writes src into dst at offset
(ox, oy), cropped to the bounds of dst.  All pastes performed by
bing_download.py use non-negative offsets, so the offsets are naturals. -/
def Img.paste (dst src : Img) (ox oy : ℕ) : Img :=
  ⟨dst.w, dst.h, fun x y =>
    if ox ≤ x ∧ (x : ℤ) < ox + src.w ∧ oy ≤ y ∧ (y : ℤ) < oy + src.h ∧
        (x : ℤ) < dst.w ∧ (y : ℤ) < dst.h
    then src.pix (x - ox) (y - oy)
    else dst.pix x y⟩

/-- Result of one HTTP tile download (AerialImageRetrieval.download_image):
either an image, or a raised network/decoding exception. -/
inductive FetchResult where
  | ok (image : Img)
  | err

/-- The external collaborators of bing_download.py, collected in one
environment so that every theorem quantifies over their behaviour:

* `latlong_to_pixelXY`: Modelled from the spec: TileSystem's spherical
  Mercator forward projection at a level, returning integer pixel
  coordinates clipped into [0, map_size(level) − 1] (hence naturals).  The
  projection itself is transcendental, so it is kept abstract; all theorems
  about the retrieval hold for every function of this type, in particular
  for the actual projection.
* `pixelXY_to_latlong`: Modelled from the spec: the inverse projection,
  taking (possibly fractional) pixel coordinates.
* `ground_resolution`: Modelled from the spec: meters per pixel at a
  latitude and level.
* `download_image`: the HTTP fetch of the tile named by a quadkey.
* `is_valid_image`: the placeholder-sentinel comparison (spec interface
  IsPlaceholderTile, negated), true iff the tile carries real imagery. -/
structure Env where
  latlong_to_pixelXY : ℚ → ℚ → ℕ → ℕ × ℕ
  pixelXY_to_latlong : ℚ → ℚ → ℕ → ℚ × ℚ
  ground_resolution : ℚ → ℕ → ℚ
  download_image : List ℕ → FetchResult
  is_valid_image : Img → Bool

/-- Observable result of one call of max_resolution_imagery_retrieval:
`retval` is the Python return value (`none` models an uncaught exception
propagating to the caller), `fetched` is the ordered list of quadkeys for
which download_image was called, `saved` is the list of rasters written to
disk together with the (lat1, lon1) pair that names the output file. -/
structure RunResult where
  retval : Option Bool
  fetched : List (List ℕ)
  saved : List ((ℚ × ℚ) × Img)

/-- Python range(a, b + 1): the tile indices a, a+1, …, b (empty when
b < a). -/
def tileRange (a b : ℕ) : List ℕ := (List.range (b + 1 - a)).map (a + ·)

/-- Whether the grid tile (tileX, tileY) at a level yields a usable image:
the download succeeds and the image passes the validity check. -/
def goodTile (env : Env) (level tileX tileY : ℕ) : Bool :=
  match env.download_image (TileSystem.tileXY_to_quadkey tileX tileY level) with
  | FetchResult.ok image => env.is_valid_image image
  | FetchResult.err => false

/-- The image downloaded for grid tile (tileX, tileY), when the download
succeeds. -/
def theImg (env : Env) (level tileX tileY : ℕ) : Img :=
  match env.download_image (TileSystem.tileXY_to_quadkey tileX tileY level) with
  | FetchResult.ok image => image
  | FetchResult.err => default

/-- Outcome of the inner tileX loop of max_resolution_imagery_retrieval
(bing_download.py lines 87-95): an exception from download_image, the
`return False` taken on the first invalid tile, or the completed row's
image list. -/
inductive RowOut where
  | exn
  | invalid
  | ok (imagelist : List Img)

/-- The inner tileX loop (bing_download.py lines 87-95): fetch each tile of
the row in order, return False (RowOut.invalid) on the first invalid tile,
propagate a fetch exception (RowOut.exn), otherwise collect the images.
The first component is the trace of quadkeys actually fetched. -/
def fetchRow (env : Env) (level tileY : ℕ) : List ℕ → List (List ℕ) × RowOut
  | [] => ([], RowOut.ok [])
  | tileX :: rest =>
    let quadkey := TileSystem.tileXY_to_quadkey tileX tileY level
    match env.download_image quadkey with
    | FetchResult.err => ([quadkey], RowOut.exn)
    | FetchResult.ok image =>
      if env.is_valid_image image then
        match fetchRow env level tileY rest with
        | (qs, RowOut.ok imagelist) => (quadkey :: qs, RowOut.ok (image :: imagelist))
        | (qs, out) => (quadkey :: qs, out)
      else ([quadkey], RowOut.invalid)

/-- The row-buffer construction (bing_download.py lines 96-98):
row_image = Image.new((len(imagelist) × 256, 256)) — always a legal
non-negative size — then paste the i-th image at (i × 256, 0). -/
def pasteTiles (row : Img) (i : ℕ) : List Img → Img
  | [] => row
  | image :: rest => pasteTiles (row.paste image (i * 256) 0) (i + 1) rest

/-- row_image after all the pastes of bing_download.py lines 96-98. -/
def buildRow (imagelist : List Img) : Img :=
  pasteTiles ⟨(imagelist.length : ℤ) * 256, 256, fun _ _ => 0⟩ 0 imagelist

/-- Outcome of the outer tileY loop (bing_download.py lines 86-99). -/
inductive RowsOut where
  | exn
  | invalid
  | done (result : Img)

/-- The outer tileY loop (bing_download.py lines 86-99): for each row,
fetch its tiles, build the row buffer and paste it into the result at
(0, (tileY − tileY1) × 256).  Aborts exactly as the corresponding row
aborts; accumulates the fetch trace across rows. -/
def assembleRows (env : Env) (level tileX1 tileX2 tileY1 : ℕ) (result : Img) :
    List ℕ → List (List ℕ) × RowsOut
  | [] => ([], RowsOut.done result)
  | tileY :: rest =>
    match fetchRow env level tileY (tileRange tileX1 tileX2) with
    | (qs, RowOut.exn) => (qs, RowsOut.exn)
    | (qs, RowOut.invalid) => (qs, RowsOut.invalid)
    | (qs, RowOut.ok imagelist) =>
      let row_image := buildRow imagelist
      let result2 := result.paste row_image 0 ((tileY - tileY1) * 256)
      match assembleRows env level tileX1 tileX2 tileY1 result2 rest with
      | (qs2, out) => (qs ++ qs2, out)

/-- The body of the level loop of max_resolution_imagery_retrieval
(bing_download.py lines 75-104) at one level.  Every statement path of the
Python body ends in a return (or an uncaught exception), reflected here by
the function being total:

* lines 75-80: project both corners; if the pixel span in either axis
  is ≤ 1, print and return False;
* lines 82-85: compute the tile range and allocate the result raster
  (Image.new raises ValueError on a negative size: retval `none`);
* lines 86-99: the row loop (invalid tile: return False; fetch error:
  exception);
* lines 101-104: save the result — Pillow refuses to encode an empty
  (zero-width or zero-height) JPEG, raising: retval `none` — and
  return True.  The file is named by (lat1, lon1). -/
def attemptLevel (env : Env) (lat1 lon1 lat2 lon2 : ℚ) (level : ℕ) : RunResult :=
  let p1 := env.latlong_to_pixelXY lat1 lon1 level
  let p2 := env.latlong_to_pixelXY lat2 lon2 level
  if ((p1.1 : ℤ) - p2.1).natAbs ≤ 1 ∨ ((p1.2 : ℤ) - p2.2).natAbs ≤ 1 then
    ⟨some false, [], []⟩
  else
    let t1 := TileSystem.pixelXY_to_tileXY p1.1 p1.2
    let t2 := TileSystem.pixelXY_to_tileXY p2.1 p2.2
    match imageNew (((t2.1 : ℤ) - t1.1 + 1) * 256) (((t2.2 : ℤ) - t1.2 + 1) * 256) with
    | none => ⟨none, [], []⟩
    | some result =>
      match assembleRows env level t1.1 t2.1 t1.2 result (tileRange t1.2 t2.2) with
      | (qs, RowsOut.exn) => ⟨none, qs, []⟩
      | (qs, RowsOut.invalid) => ⟨some false, qs, []⟩
      | (qs, RowsOut.done final) =>
        if 0 < final.w ∧ 0 < final.h then ⟨some true, qs, [((lat1, lon1), final)]⟩
        else ⟨none, qs, []⟩

/-- Python range(MAXLEVEL, 0, -1) = [23, 22, …, 1]. -/
def levelsDescending : List ℕ := (List.range TileSystem.MAXLEVEL).reverse.map (· + 1)

/-- The level loop of bing_download.py lines 74-105.  An empty level list
falls through to the final `return False` of line 105.  Since every
statement path of the loop body ends in a return (see `attemptLevel`), an
iteration never falls through to the next level; the translation therefore
returns the first body's result and the remaining levels are dead. -/
def retrievalLoop (env : Env) (lat1 lon1 lat2 lon2 : ℚ) : List ℕ → RunResult
  | [] => ⟨some false, [], []⟩
  | level :: _rest => attemptLevel env lat1 lon1 lat2 lon2 level

/-- AerialImageRetrieval.max_resolution_imagery_retrieval
(bing_download.py lines 72-105). -/
def AerialImageRetrieval.max_resolution_imagery_retrieval
    (env : Env) (lat1 lon1 lat2 lon2 : ℚ) : RunResult :=
  retrievalLoop env lat1 lon1 lat2 lon2 levelsDescending

/-- Modelled from the spec: the simplification the spec offers as
equivalent to the level loop — a single attempt at MAXLEVEL, with no
descent to coarser levels. -/
def singleMaxLevelAttempt (env : Env) (lat1 lon1 lat2 lon2 : ℚ) : RunResult :=
  attemptLevel env lat1 lon1 lat2 lon2 TileSystem.MAXLEVEL

/-- The four clipped pixel coordinates computed by
AerialImageRetrieval.calculate_bounding_box (bing_download.py lines 40-58),
grouped as ((pixelX1, pixelY1), (pixelX2, pixelY2)): these are exactly the
values the method then passes to TileSystem.pixelXY_to_latlong. -/
def AerialImageRetrieval.clipped_pixel_corners
    (env : Env) (size_meters lat lon : ℚ) : (ℚ × ℚ) × (ℚ × ℚ) :=
  let level := TileSystem.MAXLEVEL
  let ground_res := env.ground_resolution lat level
  let half_size_pixels := size_meters / 2 / ground_res
  let c := env.latlong_to_pixelXY lat lon level
  let pixelX1 := (c.1 : ℚ) - half_size_pixels
  let pixelX2 := (c.1 : ℚ) + half_size_pixels
  let pixelY1 := (c.2 : ℚ) - half_size_pixels
  let pixelY2 := (c.2 : ℚ) + half_size_pixels
  let map_size := (TileSystem.map_size level : ℚ)
  ((TileSystem.clip pixelX1 0 (map_size - 1), TileSystem.clip pixelY1 0 (map_size - 1)),
   (TileSystem.clip pixelX2 0 (map_size - 1), TileSystem.clip pixelY2 0 (map_size - 1)))

/-- AerialImageRetrieval.calculate_bounding_box (bing_download.py lines
38-70): convert the clipped pixel corners back to geography and return
(lat1, lon1, lat2, lon2). -/
def AerialImageRetrieval.calculate_bounding_box
    (env : Env) (size_meters lat lon : ℚ) : ℚ × ℚ × ℚ × ℚ :=
  let cc := AerialImageRetrieval.clipped_pixel_corners env size_meters lat lon
  let p1 := env.pixelXY_to_latlong cc.1.1 cc.1.2 TileSystem.MAXLEVEL
  let p2 := env.pixelXY_to_latlong cc.2.1 cc.2.2 TileSystem.MAXLEVEL
  (p1.1, p1.2, p2.1, p2.2)

/-- One iteration of the loop of AerialImageRetrieval.retrieve_images
(bing_download.py lines 109-112): compute the bounding box of a coordinate
and run the retrieval on it. -/
def AerialImageRetrieval.process_one (env : Env) (size_meters : ℚ) (c : ℚ × ℚ) : RunResult :=
  let bb := AerialImageRetrieval.calculate_bounding_box env size_meters c.1 c.2
  AerialImageRetrieval.max_resolution_imagery_retrieval env bb.1 bb.2.1 bb.2.2.1 bb.2.2.2

/-- Observable result of AerialImageRetrieval.retrieve_images: the
coordinates for which a retrieval was attempted (in order), the
coordinates whose failure was reported by the line-114 print, and whether
an exception escaped the loop and aborted the batch. -/
structure BatchResult where
  attempted : List (ℚ × ℚ)
  failures : List (ℚ × ℚ)
  crashed : Bool

/-- AerialImageRetrieval.retrieve_images (bing_download.py lines 107-114):
process each coordinate in order; a retrieval returning False is reported
and the loop continues; an exception propagates, ending the batch. -/
def AerialImageRetrieval.retrieve_images (env : Env) (size_meters : ℚ) :
    List (ℚ × ℚ) → BatchResult
  | [] => ⟨[], [], false⟩
  | c :: rest =>
    match (AerialImageRetrieval.process_one env size_meters c).retval with
    | none => ⟨[c], [], true⟩
    | some b =>
      let r := AerialImageRetrieval.retrieve_images env size_meters rest
      ⟨c :: r.attempted, if b then r.failures else c :: r.failures, r.crashed⟩

/-- math.radians: degrees to radians. -/
noncomputable def radians (x : ℝ) : ℝ := x * (Real.pi / 180)

/-- math.degrees: radians to degrees. -/
noncomputable def degrees (x : ℝ) : ℝ := x * (180 / Real.pi)

/-- calculate_bounding_box (calculate_bounding_box.py lines 49-75), over
exact real arithmetic: offsets box_size_meters / R in latitude and
box_size_meters / (R cos lat) in longitude, half on each side of the
center, returning (lat1, lon1, lat2, lon2) = upper-left and lower-right
corners. -/
noncomputable def calculate_bounding_box (lat lon box_size_meters : ℝ) : ℝ × ℝ × ℝ × ℝ :=
  let R : ℝ := 6378137
  let lat_rad := radians lat
  let lon_rad := radians lon
  let d_lat := box_size_meters / R
  let d_lon := box_size_meters / (R * Real.cos lat_rad)
  let lat1 := degrees (lat_rad + d_lat / 2)
  let lon1 := degrees (lon_rad - d_lon / 2)
  let lat2 := degrees (lat_rad - d_lat / 2)
  let lon2 := degrees (lon_rad + d_lon / 2)
  (lat1, lon1, lat2, lon2)

/-- A concrete 256×256 tile used by the witness runs. -/
def tile0 : Img := ⟨256, 256, fun x y => 1000 * x + y⟩

/-- Witness environment: both corners project to the same pixel, every
download fails (and is never reached). -/
def envConst : Env :=
  ⟨fun _ _ _ => (0, 0), fun _ _ _ => (0, 0), fun _ _ => 1, fun _ => FetchResult.err,
   fun _ => true⟩

/-- Witness environment: corners (0, …) and (1, …) project to pixels
(0, 0) and (100, 100) — a one-tile grid — and every download yields a
valid tile. -/
def envOneTile : Env :=
  ⟨fun lat _ _ => if lat = 0 then (0, 0) else (100, 100), fun _ _ _ => (0, 0),
   fun _ _ => 1, fun _ => FetchResult.ok tile0, fun _ => true⟩

/-- Witness environment: corners project to pixels (0, 0) and (300, 300) —
a 2×2 tile grid — and every download yields a valid tile. -/
def envTwoTile : Env :=
  ⟨fun lat _ _ => if lat = 0 then (0, 0) else (300, 300), fun _ _ _ => (0, 0),
   fun _ _ => 1, fun _ => FetchResult.ok tile0, fun _ => true⟩

/-- Witness environment: a 3×3 tile grid in which every downloaded tile is
the placeholder (is_valid_image is constantly false). -/
def envBadTile : Env :=
  ⟨fun lat _ _ => if lat = 0 then (0, 0) else (600, 600), fun _ _ _ => (0, 0),
   fun _ _ => 1, fun _ => FetchResult.ok tile0, fun _ => false⟩

/-- Environment on which every tile download raises: the coordinate
(5, 5) is centered at pixel (500, 500), its 200 m bounding box has pixel
corners (400, 400) and (600, 600), which the projection separates into
pixels (0, 0) and (900, 900), so the retrieval reaches the first download
and the exception escapes retrieve_images. -/
def envCrash : Env :=
  ⟨fun lat _ _ => if lat < 100 then (500, 500) else if lat < 450 then (0, 0) else (900, 900),
   fun x y _ => (x, y), fun _ _ => 1, fun _ => FetchResult.err, fun _ => true⟩

theorem Img.paste_w (dst src : Img) (ox oy : ℕ) : (dst.paste src ox oy).w = dst.w := rfl

theorem Img.paste_h (dst src : Img) (ox oy : ℕ) : (dst.paste src ox oy).h = dst.h := rfl

theorem pasteTiles_w (l : List Img) : ∀ (row : Img) (i : ℕ), (pasteTiles row i l).w = row.w := by
  induction l with
  | nil => intro row i; rfl
  | cons image rest ih => intro row i; simpa [pasteTiles] using ih (row.paste image (i * 256) 0) (i + 1)

theorem pasteTiles_h (l : List Img) : ∀ (row : Img) (i : ℕ), (pasteTiles row i l).h = row.h := by
  induction l with
  | nil => intro row i; rfl
  | cons image rest ih => intro row i; simpa [pasteTiles] using ih (row.paste image (i * 256) 0) (i + 1)

theorem buildRow_w (imagelist : List Img) : (buildRow imagelist).w = (imagelist.length : ℤ) * 256 := by
  simpa [buildRow] using pasteTiles_w imagelist _ 0

theorem buildRow_h (imagelist : List Img) : (buildRow imagelist).h = 256 := by
  simpa [buildRow] using pasteTiles_h imagelist _ 0

theorem tileXY_to_quadkey_length (tileX tileY level : ℕ) :
    (TileSystem.tileXY_to_quadkey tileX tileY level).length = level := by
  simp [TileSystem.tileXY_to_quadkey]

theorem tileRange_length (a b : ℕ) : (tileRange a b).length = b + 1 - a := by
  simp [tileRange]

theorem mem_tileRange {a b x : ℕ} : x ∈ tileRange a b ↔ a ≤ x ∧ x ≤ b := by
  simp only [tileRange, List.mem_map, List.mem_range]
  constructor
  · rintro ⟨i, hi, rfl⟩
    omega
  · rintro ⟨h1, h2⟩
    exact ⟨x - a, by omega, by omega⟩

theorem tileRange_get (a b : ℕ) (j : ℕ) (h : j < (tileRange a b).length) :
    (tileRange a b).get ⟨j, h⟩ = a + j := by
  simp [tileRange]

theorem tileRange_pairwise (a b : ℕ) : (tileRange a b).Pairwise (· < ·) := by
  unfold tileRange
  exact List.Pairwise.map _ (fun m n (h : m < n) => Nat.add_lt_add_left h a)
    (List.pairwise_lt_range _)

theorem fetchRow_fetched_length (env : Env) (level tileY : ℕ) :
    ∀ (cols : List ℕ) (qs : List (List ℕ)) (out : RowOut),
      fetchRow env level tileY cols = (qs, out) → ∀ qk ∈ qs, qk.length = level := by
  intro cols
  induction cols with
  | nil =>
    intro qs out h qk hqk
    simp only [fetchRow] at h
    cases h
    simp at hqk
  | cons tileX rest ih =>
    intro qs out h qk hqk
    simp only [fetchRow] at h
    split at h
    · cases h
      simp at hqk
      subst hqk
      exact tileXY_to_quadkey_length _ _ _
    · split at h
      · split at h
        · cases h
          rcases List.mem_cons.mp hqk with h1 | h1
          · subst h1; exact tileXY_to_quadkey_length _ _ _
          · exact ih _ _ (by assumption) qk h1
        · cases h
          rcases List.mem_cons.mp hqk with h1 | h1
          · subst h1; exact tileXY_to_quadkey_length _ _ _
          · exact ih _ _ (by assumption) qk h1
      · cases h
        simp at hqk
        subst hqk
        exact tileXY_to_quadkey_length _ _ _

theorem fetchRow_ok_map (env : Env) (level tileY : ℕ) :
    ∀ (cols : List ℕ) (qs : List (List ℕ)) (imagelist : List Img),
      fetchRow env level tileY cols = (qs, RowOut.ok imagelist) →
      imagelist = cols.map (fun tileX => theImg env level tileX tileY) ∧
      ∀ tileX ∈ cols, goodTile env level tileX tileY = true := by
  intro cols
  induction cols with
  | nil =>
    intro qs imagelist h
    simp only [fetchRow] at h
    cases h
    simp
  | cons tileX rest ih =>
    intro qs imagelist h
    simp only [fetchRow] at h
    cases hdl : env.download_image (TileSystem.tileXY_to_quadkey tileX tileY level) with
    | err =>
      simp only [hdl] at h
      simp at h
    | ok image =>
      simp only [hdl] at h
      by_cases hv : env.is_valid_image image
      · rw [if_pos hv] at h
        rcases hrec : fetchRow env level tileY rest with ⟨qs2, out2⟩
        simp only [hrec] at h
        cases out2 with
        | exn => simp at h
        | invalid => simp at h
        | ok imagelist2 =>
          simp only [Prod.mk.injEq, RowOut.ok.injEq] at h
          obtain ⟨hq, hi⟩ := h
          obtain ⟨h1, h2⟩ := ih qs2 imagelist2 hrec
          subst hi
          refine ⟨?_, ?_⟩
          · simp only [List.map_cons, ← h1]
            have himg : theImg env level tileX tileY = image := by
              simp [theImg, hdl]
            rw [himg]
          · intro t ht
            rcases List.mem_cons.mp ht with h3 | h3
            · subst h3
              simp [goodTile, hdl, hv]
            · exact h2 t h3
      · rw [if_neg hv] at h
        simp at h

theorem assembleRows_fetched_length (env : Env) (level tileX1 tileX2 tileY1 : ℕ) :
    ∀ (rows : List ℕ) (result : Img) (qs : List (List ℕ)) (out : RowsOut),
      assembleRows env level tileX1 tileX2 tileY1 result rows = (qs, out) →
      ∀ qk ∈ qs, qk.length = level := by
  intro rows
  induction rows with
  | nil =>
    intro result qs out h qk hqk
    simp only [assembleRows] at h
    cases h
    simp at hqk
  | cons tileY rest ih =>
    intro result qs out h qk hqk
    rcases hfr : fetchRow env level tileY (tileRange tileX1 tileX2) with ⟨qs1, out1⟩
    simp only [assembleRows, hfr] at h
    cases out1 with
    | exn =>
      cases h
      exact fetchRow_fetched_length env level tileY _ _ _ hfr qk hqk
    | invalid =>
      cases h
      exact fetchRow_fetched_length env level tileY _ _ _ hfr qk hqk
    | ok imagelist =>
      rcases hrec : assembleRows env level tileX1 tileX2 tileY1
          (result.paste (buildRow imagelist) 0 ((tileY - tileY1) * 256)) rest with ⟨qs2, out2⟩
      simp only [hrec] at h
      cases h
      rcases List.mem_append.mp hqk with h1 | h1
      · exact fetchRow_fetched_length env level tileY _ _ _ hfr qk h1
      · exact ih _ _ _ hrec qk h1

theorem assembleRows_done_dims (env : Env) (level tileX1 tileX2 tileY1 : ℕ) :
    ∀ (rows : List ℕ) (result : Img) (qs : List (List ℕ)) (final : Img),
      assembleRows env level tileX1 tileX2 tileY1 result rows = (qs, RowsOut.done final) →
      final.w = result.w ∧ final.h = result.h := by
  intro rows
  induction rows with
  | nil =>
    intro result qs final h
    simp only [assembleRows] at h
    cases h
    exact ⟨rfl, rfl⟩
  | cons tileY rest ih =>
    intro result qs final h
    rcases hfr : fetchRow env level tileY (tileRange tileX1 tileX2) with ⟨qs1, out1⟩
    simp only [assembleRows, hfr] at h
    cases out1 with
    | exn => simp at h
    | invalid => simp at h
    | ok imagelist =>
      rcases hrec : assembleRows env level tileX1 tileX2 tileY1
          (result.paste (buildRow imagelist) 0 ((tileY - tileY1) * 256)) rest with ⟨qs2, out2⟩
      simp only [hrec] at h
      cases out2 with
      | exn => simp at h
      | invalid => simp at h
      | done final2 =>
        simp only [Prod.mk.injEq, RowsOut.done.injEq] at h
        obtain ⟨hq, hf⟩ := h
        subst hf
        simpa [Img.paste_w, Img.paste_h] using ih _ _ _ hrec

theorem assembleRows_done_row_ok (env : Env) (level tileX1 tileX2 tileY1 : ℕ) :
    ∀ (rows : List ℕ) (result : Img) (qs : List (List ℕ)) (final : Img),
      assembleRows env level tileX1 tileX2 tileY1 result rows = (qs, RowsOut.done final) →
      ∀ tileY ∈ rows, ∃ qs2 imagelist,
        fetchRow env level tileY (tileRange tileX1 tileX2) = (qs2, RowOut.ok imagelist) := by
  intro rows
  induction rows with
  | nil =>
    intro result qs final h tileY ht
    simp at ht
  | cons tileY0 rest ih =>
    intro result qs final h tileY ht
    rcases hfr : fetchRow env level tileY0 (tileRange tileX1 tileX2) with ⟨qs1, out1⟩
    simp only [assembleRows, hfr] at h
    cases out1 with
    | exn => simp at h
    | invalid => simp at h
    | ok imagelist =>
      rcases hrec : assembleRows env level tileX1 tileX2 tileY1
          (result.paste (buildRow imagelist) 0 ((tileY0 - tileY1) * 256)) rest with ⟨qs2, out2⟩
      simp only [hrec] at h
      cases out2 with
      | exn => simp at h
      | invalid => simp at h
      | done final2 =>
        rcases List.mem_cons.mp ht with h1 | h1
        · subst h1
          exact ⟨qs1, imagelist, hfr⟩
        · exact ih _ _ _ hrec tileY h1

theorem assembleRows_done_good (env : Env) (level tileX1 tileX2 tileY1 : ℕ)
    (rows : List ℕ) (result : Img) (qs : List (List ℕ)) (final : Img)
    (h : assembleRows env level tileX1 tileX2 tileY1 result rows = (qs, RowsOut.done final)) :
    ∀ tileY ∈ rows, ∀ tileX ∈ tileRange tileX1 tileX2, goodTile env level tileX tileY = true := by
  intro tileY ht tileX hx
  obtain ⟨qs2, imagelist, hfr⟩ := assembleRows_done_row_ok env level tileX1 tileX2 tileY1
    rows result qs final h tileY ht
  exact (fetchRow_ok_map env level tileY _ _ _ hfr).2 tileX hx

theorem attemptLevel_success_inv (env : Env) (lat1 lon1 lat2 lon2 : ℚ) (level : ℕ)
    (pX1 pY1 pX2 pY2 tileX1 tileY1 tileX2 tileY2 : ℕ) (W H : ℤ)
    (h1 : env.latlong_to_pixelXY lat1 lon1 level = (pX1, pY1))
    (h2 : env.latlong_to_pixelXY lat2 lon2 level = (pX2, pY2))
    (ht1 : tileX1 = pX1 / 256) (ht2 : tileY1 = pY1 / 256)
    (ht3 : tileX2 = pX2 / 256) (ht4 : tileY2 = pY2 / 256)
    (hW : W = ((tileX2 : ℤ) - tileX1 + 1) * 256) (hH : H = ((tileY2 : ℤ) - tileY1 + 1) * 256)
    (h : (attemptLevel env lat1 lon1 lat2 lon2 level).retval = some true) :
    ¬(((pX1 : ℤ) - pX2).natAbs ≤ 1 ∨ ((pY1 : ℤ) - pY2).natAbs ≤ 1) ∧
    ∃ qs final,
      assembleRows env level tileX1 tileX2 tileY1 ⟨W, H, fun _ _ => 0⟩
          (tileRange tileY1 tileY2) = (qs, RowsOut.done final) ∧
      final.w = W ∧ final.h = H ∧ 0 < final.w ∧ 0 < final.h ∧
      attemptLevel env lat1 lon1 lat2 lon2 level = ⟨some true, qs, [((lat1, lon1), final)]⟩ := by
  subst ht1 ht2 ht3 ht4 hW hH
  have hunf : attemptLevel env lat1 lon1 lat2 lon2 level =
      (if ((pX1 : ℤ) - pX2).natAbs ≤ 1 ∨ ((pY1 : ℤ) - pY2).natAbs ≤ 1 then
        (⟨some false, [], []⟩ : RunResult)
      else
        match imageNew ((((pX2 / 256 : ℕ) : ℤ) - (pX1 / 256 : ℕ) + 1) * 256)
            ((((pY2 / 256 : ℕ) : ℤ) - (pY1 / 256 : ℕ) + 1) * 256) with
        | none => ⟨none, [], []⟩
        | some result =>
          match assembleRows env level (pX1 / 256) (pX2 / 256) (pY1 / 256) result
              (tileRange (pY1 / 256) (pY2 / 256)) with
          | (qs, RowsOut.exn) => ⟨none, qs, []⟩
          | (qs, RowsOut.invalid) => ⟨some false, qs, []⟩
          | (qs, RowsOut.done final) =>
            if 0 < final.w ∧ 0 < final.h then ⟨some true, qs, [((lat1, lon1), final)]⟩
            else ⟨none, qs, []⟩) := by
    simp only [attemptLevel, h1, h2, TileSystem.pixelXY_to_tileXY]
  by_cases hspan : ((pX1 : ℤ) - pX2).natAbs ≤ 1 ∨ ((pY1 : ℤ) - pY2).natAbs ≤ 1
  · rw [hunf, if_pos hspan] at h
    simp at h
  · refine ⟨hspan, ?_⟩
    rw [hunf, if_neg hspan] at h
    by_cases hWH : 0 ≤ (((pX2 / 256 : ℕ) : ℤ) - (pX1 / 256 : ℕ) + 1) * 256 ∧
        0 ≤ (((pY2 / 256 : ℕ) : ℤ) - (pY1 / 256 : ℕ) + 1) * 256
    · have hin : imageNew ((((pX2 / 256 : ℕ) : ℤ) - (pX1 / 256 : ℕ) + 1) * 256)
          ((((pY2 / 256 : ℕ) : ℤ) - (pY1 / 256 : ℕ) + 1) * 256) =
          some ⟨(((pX2 / 256 : ℕ) : ℤ) - (pX1 / 256 : ℕ) + 1) * 256,
                (((pY2 / 256 : ℕ) : ℤ) - (pY1 / 256 : ℕ) + 1) * 256, fun _ _ => 0⟩ := by
        simp only [imageNew, if_pos hWH]
      rw [hin] at h
      dsimp only at h
      rcases hAR : assembleRows env level (pX1 / 256) (pX2 / 256) (pY1 / 256)
          ⟨(((pX2 / 256 : ℕ) : ℤ) - (pX1 / 256 : ℕ) + 1) * 256,
           (((pY2 / 256 : ℕ) : ℤ) - (pY1 / 256 : ℕ) + 1) * 256, fun _ _ => 0⟩
          (tileRange (pY1 / 256) (pY2 / 256)) with ⟨qs, out⟩
      rw [hAR] at h
      cases out with
      | exn => simp at h
      | invalid => simp at h
      | done final =>
        dsimp only at h
        by_cases hpos : 0 < final.w ∧ 0 < final.h
        · obtain ⟨hw, hh⟩ := assembleRows_done_dims env level (pX1 / 256) (pX2 / 256) (pY1 / 256)
            (tileRange (pY1 / 256) (pY2 / 256)) _ qs final hAR
          refine ⟨qs, final, rfl, hw, hh, hpos.1, hpos.2, ?_⟩
          rw [hunf, if_neg hspan, hin]
          dsimp only
          rw [hAR]
          dsimp only
          rw [if_pos hpos]
        · rw [if_neg hpos] at h
          simp at h
    · have hin : imageNew ((((pX2 / 256 : ℕ) : ℤ) - (pX1 / 256 : ℕ) + 1) * 256)
          ((((pY2 / 256 : ℕ) : ℤ) - (pY1 / 256 : ℕ) + 1) * 256) = none := by
        simp only [imageNew, if_neg hWH]
      rw [hin] at h
      simp at h

theorem retrieval_eq_attempt (env : Env) (lat1 lon1 lat2 lon2 : ℚ) :
    AerialImageRetrieval.max_resolution_imagery_retrieval env lat1 lon1 lat2 lon2 =
    attemptLevel env lat1 lon1 lat2 lon2 TileSystem.MAXLEVEL := rfl

theorem attemptLevel_retval_or_saved (env : Env) (lat1 lon1 lat2 lon2 : ℚ) (level : ℕ) :
    (attemptLevel env lat1 lon1 lat2 lon2 level).retval = some true ∨
    ((attemptLevel env lat1 lon1 lat2 lon2 level).saved = [] ∧
     ((attemptLevel env lat1 lon1 lat2 lon2 level).retval = some false ∨
      (attemptLevel env lat1 lon1 lat2 lon2 level).retval = none)) := by
  suffices h : ∀ r : RunResult, attemptLevel env lat1 lon1 lat2 lon2 level = r →
      r.retval = some true ∨ (r.saved = [] ∧ (r.retval = some false ∨ r.retval = none)) by
    exact h _ rfl
  intro r hr
  simp only [attemptLevel] at hr
  split at hr
  · subst hr
    right
    exact ⟨rfl, Or.inl rfl⟩
  · split at hr
    · subst hr
      right
      exact ⟨rfl, Or.inr rfl⟩
    · split at hr
      · subst hr
        right
        exact ⟨rfl, Or.inr rfl⟩
      · subst hr
        right
        exact ⟨rfl, Or.inl rfl⟩
      · split at hr
        · subst hr
          left
          rfl
        · subst hr
          right
          exact ⟨rfl, Or.inr rfl⟩

theorem attemptLevel_fetched_length (env : Env) (lat1 lon1 lat2 lon2 : ℚ) (level : ℕ) :
    ∀ qk ∈ (attemptLevel env lat1 lon1 lat2 lon2 level).fetched, qk.length = level := by
  suffices h : ∀ r : RunResult, attemptLevel env lat1 lon1 lat2 lon2 level = r →
      ∀ qk ∈ r.fetched, qk.length = level by
    exact h _ rfl
  intro r hr
  simp only [attemptLevel] at hr
  split at hr
  · subst hr
    intro qk hqk
    simp at hqk
  · split at hr
    · subst hr
      intro qk hqk
      simp at hqk
    · rename_i result hImg
      split at hr
      · rename_i qs hAR
        subst hr
        intro qk hqk
        exact assembleRows_fetched_length env level _ _ _ _ _ _ _ hAR qk hqk
      · rename_i qs hAR
        subst hr
        intro qk hqk
        exact assembleRows_fetched_length env level _ _ _ _ _ _ _ hAR qk hqk
      · rename_i qs final hAR
        split at hr
        · subst hr
          intro qk hqk
          exact assembleRows_fetched_length env level _ _ _ _ _ _ _ hAR qk hqk
        · subst hr
          intro qk hqk
          exact assembleRows_fetched_length env level _ _ _ _ _ _ _ hAR qk hqk

/-- C1: for every bounding box whose two corners, converted to pixel
coordinates at MAXLEVEL, have an absolute pixel span ≤ 1 in the x axis or
in the y axis, max_resolution_imagery_retrieval returns False and
terminates the whole search without fetching any tile (empty fetch trace,
nothing saved). -/
theorem claim_C1 (env : Env) (lat1 lon1 lat2 lon2 : ℚ) (pX1 pY1 pX2 pY2 : ℕ)
    (h1 : env.latlong_to_pixelXY lat1 lon1 TileSystem.MAXLEVEL = (pX1, pY1))
    (h2 : env.latlong_to_pixelXY lat2 lon2 TileSystem.MAXLEVEL = (pX2, pY2))
    (hspan : ((pX1 : ℤ) - pX2).natAbs ≤ 1 ∨ ((pY1 : ℤ) - pY2).natAbs ≤ 1) :
    AerialImageRetrieval.max_resolution_imagery_retrieval env lat1 lon1 lat2 lon2 =
      ⟨some false, [], []⟩ := by
  rw [retrieval_eq_attempt]
  simp only [attemptLevel, h1, h2]
  rw [if_pos hspan]

/-- Witness for C1: a concrete environment projecting both corners to the
same pixel at MAXLEVEL. -/
theorem claim_C1_witness :
    envConst.latlong_to_pixelXY 0 0 TileSystem.MAXLEVEL = (0, 0) ∧
    (((0 : ℕ) : ℤ) - ((0 : ℕ) : ℤ)).natAbs ≤ 1 ∧
    AerialImageRetrieval.max_resolution_imagery_retrieval envConst 0 0 0 0 =
      ⟨some false, [], []⟩ :=
  ⟨rfl, by decide, claim_C1 envConst 0 0 0 0 0 0 0 0 rfl rfl (Or.inl (by decide))⟩

/-- C2: if the tile grid is chosen at MAXLEVEL (pixel spans > 1) and some
tile of the grid is bad — its fetch fails or it is the placeholder — then
the retrieval aborts: it does not return True, saves no output raster, and
never fetches at a level other than MAXLEVEL (no fallback to a coarser
level). -/
theorem claim_C2 (env : Env) (lat1 lon1 lat2 lon2 : ℚ) (pX1 pY1 pX2 pY2 tX tY : ℕ)
    (h1 : env.latlong_to_pixelXY lat1 lon1 TileSystem.MAXLEVEL = (pX1, pY1))
    (h2 : env.latlong_to_pixelXY lat2 lon2 TileSystem.MAXLEVEL = (pX2, pY2))
    (hspan : ¬(((pX1 : ℤ) - pX2).natAbs ≤ 1 ∨ ((pY1 : ℤ) - pY2).natAbs ≤ 1))
    (hgrid : pX1 / 256 ≤ tX ∧ tX ≤ pX2 / 256 ∧ pY1 / 256 ≤ tY ∧ tY ≤ pY2 / 256)
    (hbad : goodTile env TileSystem.MAXLEVEL tX tY = false) :
    ((AerialImageRetrieval.max_resolution_imagery_retrieval env lat1 lon1 lat2 lon2).retval =
        some false ∨
     (AerialImageRetrieval.max_resolution_imagery_retrieval env lat1 lon1 lat2 lon2).retval =
        none) ∧
    (AerialImageRetrieval.max_resolution_imagery_retrieval env lat1 lon1 lat2 lon2).saved = [] ∧
    (AerialImageRetrieval.max_resolution_imagery_retrieval env lat1 lon1 lat2 lon2).fetched.all
      (fun qk => qk.length == TileSystem.MAXLEVEL) = true := by
  have hnotsucc : (attemptLevel env lat1 lon1 lat2 lon2 TileSystem.MAXLEVEL).retval ≠
      some true := by
    intro hsucc
    obtain ⟨-, qs, final, hAR, -, -, -, -, -⟩ := attemptLevel_success_inv env lat1 lon1 lat2 lon2
      TileSystem.MAXLEVEL pX1 pY1 pX2 pY2 _ _ _ _ _ _ h1 h2 rfl rfl rfl rfl rfl rfl hsucc
    have hgood := assembleRows_done_good env TileSystem.MAXLEVEL _ _ _ _ _ _ _ hAR tY
      (mem_tileRange.mpr ⟨hgrid.2.2.1, hgrid.2.2.2⟩) tX (mem_tileRange.mpr ⟨hgrid.1, hgrid.2.1⟩)
    simp [hbad] at hgood
  rcases attemptLevel_retval_or_saved env lat1 lon1 lat2 lon2 TileSystem.MAXLEVEL with
    hs | ⟨hsv, hrv⟩
  · exact absurd hs hnotsucc
  · rw [retrieval_eq_attempt]
    refine ⟨hrv, hsv, ?_⟩
    rw [List.all_eq_true]
    intro qk hqk
    exact beq_iff_eq.mpr (attemptLevel_fetched_length env lat1 lon1 lat2 lon2 _ qk hqk)

/-- Witness for C2: a 3×3 grid whose every tile is the placeholder. -/
theorem claim_C2_witness :
    envBadTile.latlong_to_pixelXY 0 0 TileSystem.MAXLEVEL = (0, 0) ∧
    envBadTile.latlong_to_pixelXY 1 1 TileSystem.MAXLEVEL = (600, 600) ∧
    ¬((((0 : ℕ) : ℤ) - ((600 : ℕ) : ℤ)).natAbs ≤ 1 ∨
      (((0 : ℕ) : ℤ) - ((600 : ℕ) : ℤ)).natAbs ≤ 1) ∧
    goodTile envBadTile TileSystem.MAXLEVEL 0 0 = false ∧
    ((AerialImageRetrieval.max_resolution_imagery_retrieval envBadTile 0 0 1 1).retval =
        some false ∨
     (AerialImageRetrieval.max_resolution_imagery_retrieval envBadTile 0 0 1 1).retval = none) ∧
    (AerialImageRetrieval.max_resolution_imagery_retrieval envBadTile 0 0 1 1).saved = [] ∧
    (AerialImageRetrieval.max_resolution_imagery_retrieval envBadTile 0 0 1 1).fetched.all
      (fun qk => qk.length == TileSystem.MAXLEVEL) = true := by
  have h := claim_C2 envBadTile 0 0 1 1 0 0 600 600 0 0 rfl rfl (by decide) (by decide) rfl
  exact ⟨rfl, rfl, by decide, rfl, h.1, h.2.1, h.2.2⟩

/-- C7: the descending level loop is equivalent to a single attempt at
MAXLEVEL — every path through the first iteration returns — and every
fetched quadkey has length MAXLEVEL, so no level strictly below MAXLEVEL
is ever tried. -/
theorem claim_C7 (env : Env) (lat1 lon1 lat2 lon2 : ℚ) :
    AerialImageRetrieval.max_resolution_imagery_retrieval env lat1 lon1 lat2 lon2 =
      singleMaxLevelAttempt env lat1 lon1 lat2 lon2 ∧
    (AerialImageRetrieval.max_resolution_imagery_retrieval env lat1 lon1 lat2 lon2).fetched.all
      (fun qk => qk.length == TileSystem.MAXLEVEL) = true := by
  refine ⟨retrieval_eq_attempt env lat1 lon1 lat2 lon2, ?_⟩
  rw [List.all_eq_true]
  intro qk hqk
  rw [retrieval_eq_attempt] at hqk
  exact beq_iff_eq.mpr (attemptLevel_fetched_length env lat1 lon1 lat2 lon2 _ qk hqk)

/-- C8: all four pixel coordinates computed by
AerialImageRetrieval.calculate_bounding_box are clipped into
[0, map_size(MAXLEVEL) − 1] before being handed to pixelXY_to_latlong. -/
theorem claim_C8 (env : Env) (size_meters lat lon : ℚ) :
    (0 ≤ (AerialImageRetrieval.clipped_pixel_corners env size_meters lat lon).1.1 ∧
      (AerialImageRetrieval.clipped_pixel_corners env size_meters lat lon).1.1 ≤
        (TileSystem.map_size TileSystem.MAXLEVEL : ℚ) - 1) ∧
    (0 ≤ (AerialImageRetrieval.clipped_pixel_corners env size_meters lat lon).1.2 ∧
      (AerialImageRetrieval.clipped_pixel_corners env size_meters lat lon).1.2 ≤
        (TileSystem.map_size TileSystem.MAXLEVEL : ℚ) - 1) ∧
    (0 ≤ (AerialImageRetrieval.clipped_pixel_corners env size_meters lat lon).2.1 ∧
      (AerialImageRetrieval.clipped_pixel_corners env size_meters lat lon).2.1 ≤
        (TileSystem.map_size TileSystem.MAXLEVEL : ℚ) - 1) ∧
    (0 ≤ (AerialImageRetrieval.clipped_pixel_corners env size_meters lat lon).2.2 ∧
      (AerialImageRetrieval.clipped_pixel_corners env size_meters lat lon).2.2 ≤
        (TileSystem.map_size TileSystem.MAXLEVEL : ℚ) - 1) := by
  have hM : (0 : ℚ) ≤ (TileSystem.map_size TileSystem.MAXLEVEL : ℚ) - 1 := by
    norm_num [TileSystem.map_size, TileSystem.MAXLEVEL]
  have key : ∀ v : ℚ,
      0 ≤ TileSystem.clip v 0 ((TileSystem.map_size TileSystem.MAXLEVEL : ℚ) - 1) ∧
      TileSystem.clip v 0 ((TileSystem.map_size TileSystem.MAXLEVEL : ℚ) - 1) ≤
        (TileSystem.map_size TileSystem.MAXLEVEL : ℚ) - 1 :=
    fun v => ⟨le_min (le_max_right v 0) hM, min_le_right _ _⟩
  exact ⟨key _, key _, key _, key _⟩

theorem pasteTiles_pix_lt (l : List Img) : ∀ (row : Img) (i x y : ℕ), x < i * 256 →
    (pasteTiles row i l).pix x y = row.pix x y := by
  induction l with
  | nil => intro row i x y hx; rfl
  | cons image rest ih =>
    intro row i x y hx
    simp only [pasteTiles]
    rw [ih (row.paste image (i * 256) 0) (i + 1) x y (by omega)]
    simp only [Img.paste]
    rw [if_neg]
    intro hc
    omega

theorem pasteTiles_pix (l : List Img) : ∀ (row : Img) (i j : ℕ) (hj : j < l.length)
    (dx dy : ℕ), dx < 256 → dy < 256 → row.h = 256 →
    (((i + j + 1) * 256 : ℕ) : ℤ) ≤ row.w →
    (l.get ⟨j, hj⟩).w = 256 → (l.get ⟨j, hj⟩).h = 256 →
    (pasteTiles row i l).pix ((i + j) * 256 + dx) dy = (l.get ⟨j, hj⟩).pix dx dy := by
  induction l with
  | nil =>
    intro row i j hj
    exact absurd hj (by simp)
  | cons image rest ih =>
    intro row i j hj dx dy hdx hdy hrh hrw himw himh
    cases j with
    | zero =>
      simp only [pasteTiles]
      rw [pasteTiles_pix_lt rest _ (i + 1) _ dy (by omega)]
      simp only [List.get] at himw himh ⊢
      simp only [Img.paste]
      rw [if_pos]
      · have hx : (i + 0) * 256 + dx - i * 256 = dx := by omega
        have hy : dy - 0 = dy := by omega
        rw [hx, hy]
      · refine ⟨by omega, ?_, by omega, ?_, ?_, ?_⟩
        · rw [himw]
          push_cast
          omega
        · rw [himh]
          push_cast
          omega
        · push_cast at hrw ⊢
          omega
        · rw [hrh]
          push_cast
          omega
    | succ j2 =>
      simp only [pasteTiles]
      have hj2 : j2 < rest.length := by
        simpa using hj
      have heq : (i + (j2 + 1)) * 256 + dx = (i + 1 + j2) * 256 + dx := by ring_nf
      rw [heq]
      have hres := ih (row.paste image (i * 256) 0) (i + 1) j2 hj2 dx dy hdx hdy
        (by rw [Img.paste_h]; exact hrh)
        (by rw [Img.paste_w]; push_cast at hrw ⊢; omega)
        (by simpa using himw) (by simpa using himh)
      rw [hres]
      rfl

theorem buildRow_pix (l : List Img) (j dx dy : ℕ) (hj : j < l.length)
    (hdx : dx < 256) (hdy : dy < 256)
    (hw : (l.get ⟨j, hj⟩).w = 256) (hh : (l.get ⟨j, hj⟩).h = 256) :
    (buildRow l).pix (j * 256 + dx) dy = (l.get ⟨j, hj⟩).pix dx dy := by
  have hres := pasteTiles_pix l ⟨(l.length : ℤ) * 256, 256, fun _ _ => 0⟩ 0 j hj dx dy hdx hdy
    rfl (by show ((0 + j + 1) * 256 : ℕ) ≤ ((l.length : ℤ) * 256 : ℤ); push_cast; omega) hw hh
  have h0 : 0 + j = j := Nat.zero_add j
  rw [h0] at hres
  exact hres

theorem assembleRows_pix_untouched (env : Env) (level tileX1 tileX2 tileY1 : ℕ) :
    ∀ (rows : List ℕ) (result : Img) (qs : List (List ℕ)) (final : Img) (x y : ℕ),
      (∀ tY ∈ rows, y < (tY - tileY1) * 256) →
      assembleRows env level tileX1 tileX2 tileY1 result rows = (qs, RowsOut.done final) →
      final.pix x y = result.pix x y := by
  intro rows
  induction rows with
  | nil =>
    intro result qs final x y hy h
    simp only [assembleRows] at h
    cases h
    rfl
  | cons tileY0 rest ih =>
    intro result qs final x y hy h
    rcases hfr : fetchRow env level tileY0 (tileRange tileX1 tileX2) with ⟨qs1, out1⟩
    simp only [assembleRows, hfr] at h
    cases out1 with
    | exn => simp at h
    | invalid => simp at h
    | ok imagelist =>
      rcases hrec : assembleRows env level tileX1 tileX2 tileY1
          (result.paste (buildRow imagelist) 0 ((tileY0 - tileY1) * 256)) rest with ⟨qs2, out2⟩
      simp only [hrec] at h
      cases out2 with
      | exn => simp at h
      | invalid => simp at h
      | done final2 =>
        simp only [Prod.mk.injEq, RowsOut.done.injEq] at h
        obtain ⟨hq, hf⟩ := h
        subst hf
        rw [ih _ _ _ x y (fun tY ht => hy tY (List.mem_cons_of_mem _ ht)) hrec]
        simp only [Img.paste]
        rw [if_neg]
        intro hc
        have hy0 := hy tileY0 (List.mem_cons_self _ _)
        omega

theorem assembleRows_pix (env : Env) (level tileX1 tileX2 tileY1 : ℕ) :
    ∀ (rows : List ℕ) (result : Img) (qs : List (List ℕ)) (final : Img) (tY dy x : ℕ),
      rows.Pairwise (· < ·) → tY ∈ rows → tileY1 ≤ tY → dy < 256 →
      (x : ℤ) < result.w → (((tY - tileY1) * 256 + dy : ℕ) : ℤ) < result.h →
      assembleRows env level tileX1 tileX2 tileY1 result rows = (qs, RowsOut.done final) →
      ∀ (qs2 : List (List ℕ)) (imagelist : List Img),
        fetchRow env level tY (tileRange tileX1 tileX2) = (qs2, RowOut.ok imagelist) →
        (x : ℤ) < (imagelist.length : ℤ) * 256 →
        final.pix x ((tY - tileY1) * 256 + dy) = (buildRow imagelist).pix x dy := by
  intro rows
  induction rows with
  | nil =>
    intro result qs final tY dy x hpw htY
    simp at htY
  | cons tileY0 rest ih =>
    intro result qs final tY dy x hpw htY hty1 hdy hxw hyh h qs2 imagelist hfetch hxlen
    rcases hfr : fetchRow env level tileY0 (tileRange tileX1 tileX2) with ⟨qs1, out1⟩
    simp only [assembleRows, hfr] at h
    cases out1 with
    | exn => simp at h
    | invalid => simp at h
    | ok imagelist0 =>
      rcases hrec : assembleRows env level tileX1 tileX2 tileY1
          (result.paste (buildRow imagelist0) 0 ((tileY0 - tileY1) * 256)) rest with ⟨qs3, out2⟩
      simp only [hrec] at h
      cases out2 with
      | exn => simp at h
      | invalid => simp at h
      | done final2 =>
        simp only [Prod.mk.injEq, RowsOut.done.injEq] at h
        obtain ⟨hq, hf⟩ := h
        subst hf
        rcases List.mem_cons.mp htY with heq | hmem
        · subst heq
          rw [hfetch] at hfr
          simp only [Prod.mk.injEq, RowOut.ok.injEq] at hfr
          obtain ⟨hq1, him⟩ := hfr
          subst him
          have hrest : ∀ t ∈ rest, (tY - tileY1) * 256 + dy < (t - tileY1) * 256 := by
            intro t ht
            have htgt : tY < t := (List.pairwise_cons.mp hpw).1 t ht
            omega
          rw [assembleRows_pix_untouched env level tileX1 tileX2 tileY1 rest _ _ _ x
            ((tY - tileY1) * 256 + dy) hrest hrec]
          simp only [Img.paste]
          rw [if_pos]
          · have hx0 : x - 0 = x := by omega
            have hy0 : (tY - tileY1) * 256 + dy - (tY - tileY1) * 256 = dy := by omega
            rw [hx0, hy0]
          · refine ⟨by omega, ?_, by omega, ?_, ?_, ?_⟩
            · rw [buildRow_w]
              push_cast
              omega
            · rw [buildRow_h]
              push_cast
              omega
            · exact hxw
            · exact hyh
        · have hpw2 := (List.pairwise_cons.mp hpw).2
          exact ih _ _ _ tY dy x hpw2 hmem hty1 hdy
            (by rw [Img.paste_w]; exact hxw) (by rw [Img.paste_h]; exact hyh)
            hrec qs2 imagelist hfetch hxlen

theorem tileRange_getElem (a b j : ℕ) (h : j < (tileRange a b).length) :
    (tileRange a b)[j] = a + j := by
  simp [tileRange]

/-- C3: on every successful assembly, the saved raster measures exactly
((tileX2 − tileX1 + 1) × 256, (tileY2 − tileY1 + 1) × 256) — with
tileXi, tileYi the tile indices of the pixel corners at MAXLEVEL — and both
dimensions are positive and divisible by 256. -/
theorem claim_C3 (env : Env) (lat1 lon1 lat2 lon2 : ℚ) (pX1 pY1 pX2 pY2 : ℕ)
    (h1 : env.latlong_to_pixelXY lat1 lon1 TileSystem.MAXLEVEL = (pX1, pY1))
    (h2 : env.latlong_to_pixelXY lat2 lon2 TileSystem.MAXLEVEL = (pX2, pY2))
    (hsucc : (AerialImageRetrieval.max_resolution_imagery_retrieval env
      lat1 lon1 lat2 lon2).retval = some true) :
    (AerialImageRetrieval.max_resolution_imagery_retrieval env lat1 lon1 lat2 lon2).saved.map
        (fun p => (p.2.w, p.2.h)) =
      [((((pX2 / 256 : ℕ) : ℤ) - ((pX1 / 256 : ℕ) : ℤ) + 1) * 256,
        (((pY2 / 256 : ℕ) : ℤ) - ((pY1 / 256 : ℕ) : ℤ) + 1) * 256)] ∧
    0 < (((pX2 / 256 : ℕ) : ℤ) - ((pX1 / 256 : ℕ) : ℤ) + 1) * 256 ∧
    0 < (((pY2 / 256 : ℕ) : ℤ) - ((pY1 / 256 : ℕ) : ℤ) + 1) * 256 ∧
    (256 : ℤ) ∣ (((pX2 / 256 : ℕ) : ℤ) - ((pX1 / 256 : ℕ) : ℤ) + 1) * 256 ∧
    (256 : ℤ) ∣ (((pY2 / 256 : ℕ) : ℤ) - ((pY1 / 256 : ℕ) : ℤ) + 1) * 256 := by
  rw [retrieval_eq_attempt] at hsucc
  obtain ⟨hspan, qs, final, hAR, hw, hh, hw0, hh0, hEq⟩ :=
    attemptLevel_success_inv env lat1 lon1 lat2 lon2 TileSystem.MAXLEVEL pX1 pY1 pX2 pY2
      _ _ _ _ _ _ h1 h2 rfl rfl rfl rfl rfl rfl hsucc
  rw [hw] at hw0
  rw [hh] at hh0
  refine ⟨?_, hw0, hh0, ⟨_, mul_comm _ 256⟩, ⟨_, mul_comm _ 256⟩⟩
  rw [retrieval_eq_attempt, hEq]
  simp only [List.map_cons, List.map_nil]
  rw [hw, hh]

/-- Witness for C3: the one-tile success run saves a 256×256 raster. -/
theorem claim_C3_witness :
    (AerialImageRetrieval.max_resolution_imagery_retrieval envOneTile 0 0 1 1).retval =
      some true ∧
    (AerialImageRetrieval.max_resolution_imagery_retrieval envOneTile 0 0 1 1).saved.map
        (fun p => (p.2.w, p.2.h)) =
      [((((100 / 256 : ℕ) : ℤ) - ((0 / 256 : ℕ) : ℤ) + 1) * 256,
        (((100 / 256 : ℕ) : ℤ) - ((0 / 256 : ℕ) : ℤ) + 1) * 256)] ∧
    0 < (((100 / 256 : ℕ) : ℤ) - ((0 / 256 : ℕ) : ℤ) + 1) * 256 ∧
    (256 : ℤ) ∣ (((100 / 256 : ℕ) : ℤ) - ((0 / 256 : ℕ) : ℤ) + 1) * 256 := by
  have h := claim_C3 envOneTile 0 0 1 1 0 0 100 100 rfl rfl rfl
  exact ⟨rfl, h.1, h.2.1, h.2.2.2.1⟩

/-- C4: on every successful assembly, each fetched 256×256 tile
(tileX, tileY) of the grid occupies the block of the output raster at
pixel offset ((tileX − tileX1) × 256, (tileY − tileY1) × 256): the
row-buffer composition of the code equals direct per-tile placement. -/
theorem claim_C4 (env : Env) (lat1 lon1 lat2 lon2 : ℚ)
    (pX1 pY1 pX2 pY2 tX tY dx dy : ℕ) (img : Img)
    (h1 : env.latlong_to_pixelXY lat1 lon1 TileSystem.MAXLEVEL = (pX1, pY1))
    (h2 : env.latlong_to_pixelXY lat2 lon2 TileSystem.MAXLEVEL = (pX2, pY2))
    (hsucc : (AerialImageRetrieval.max_resolution_imagery_retrieval env
      lat1 lon1 lat2 lon2).retval = some true)
    (hgX1 : pX1 / 256 ≤ tX) (hgX2 : tX ≤ pX2 / 256)
    (hgY1 : pY1 / 256 ≤ tY) (hgY2 : tY ≤ pY2 / 256)
    (hfetch : env.download_image (TileSystem.tileXY_to_quadkey tX tY TileSystem.MAXLEVEL) =
      FetchResult.ok img)
    (himw : img.w = 256) (himh : img.h = 256)
    (hdx : dx < 256) (hdy : dy < 256) :
    (AerialImageRetrieval.max_resolution_imagery_retrieval env lat1 lon1 lat2 lon2).saved.map
        (fun p => p.2.pix ((tX - pX1 / 256) * 256 + dx) ((tY - pY1 / 256) * 256 + dy)) =
      [img.pix dx dy] := by
  rw [retrieval_eq_attempt] at hsucc
  obtain ⟨hspan, qs, final, hAR, hw, hh, hw0, hh0, hEq⟩ :=
    attemptLevel_success_inv env lat1 lon1 lat2 lon2 TileSystem.MAXLEVEL pX1 pY1 pX2 pY2
      _ _ _ _ _ _ h1 h2 rfl rfl rfl rfl rfl rfl hsucc
  have htYmem : tY ∈ tileRange (pY1 / 256) (pY2 / 256) := mem_tileRange.mpr ⟨hgY1, hgY2⟩
  obtain ⟨qs2, imagelist, hfr⟩ :=
    assembleRows_done_row_ok env TileSystem.MAXLEVEL _ _ _ _ _ _ _ hAR tY htYmem
  obtain ⟨hmap, hgood⟩ := fetchRow_ok_map env TileSystem.MAXLEVEL tY _ _ _ hfr
  subst hmap
  have hlen : ((tileRange (pX1 / 256) (pX2 / 256)).map
      (fun tileX => theImg env TileSystem.MAXLEVEL tileX tY)).length =
      pX2 / 256 + 1 - pX1 / 256 := by
    rw [List.length_map, tileRange_length]
  have hxw : (((tX - pX1 / 256) * 256 + dx : ℕ) : ℤ) <
      (((pX2 / 256 : ℕ) : ℤ) - ((pX1 / 256 : ℕ) : ℤ) + 1) * 256 := by omega
  have hyh : (((tY - pY1 / 256) * 256 + dy : ℕ) : ℤ) <
      (((pY2 / 256 : ℕ) : ℤ) - ((pY1 / 256 : ℕ) : ℤ) + 1) * 256 := by omega
  have hxlen : (((tX - pX1 / 256) * 256 + dx : ℕ) : ℤ) <
      (((tileRange (pX1 / 256) (pX2 / 256)).map
        (fun tileX => theImg env TileSystem.MAXLEVEL tileX tY)).length : ℤ) * 256 := by
    rw [hlen]
    omega
  have hpix1 := assembleRows_pix env TileSystem.MAXLEVEL (pX1 / 256) (pX2 / 256) (pY1 / 256)
    (tileRange (pY1 / 256) (pY2 / 256)) _ qs final tY dy ((tX - pX1 / 256) * 256 + dx)
    (tileRange_pairwise _ _) htYmem hgY1 hdy hxw hyh hAR qs2 _ hfr hxlen
  have hj : tX - pX1 / 256 < ((tileRange (pX1 / 256) (pX2 / 256)).map
      (fun tileX => theImg env TileSystem.MAXLEVEL tileX tY)).length := by
    rw [hlen]
    omega
  have hget : ((tileRange (pX1 / 256) (pX2 / 256)).map
      (fun tileX => theImg env TileSystem.MAXLEVEL tileX tY)).get ⟨tX - pX1 / 256, hj⟩ =
      img := by
    rw [List.get_eq_getElem, List.getElem_map, tileRange_getElem]
    have hix : pX1 / 256 + (tX - pX1 / 256) = tX := by omega
    rw [hix]
    simp [theImg, hfetch]
  have hpix2 := buildRow_pix _ (tX - pX1 / 256) dx dy hj hdx hdy
    (by rw [hget]; exact himw) (by rw [hget]; exact himh)
  rw [hget] at hpix2
  rw [retrieval_eq_attempt, hEq]
  simp only [List.map_cons, List.map_nil]
  rw [hpix1.trans hpix2]

/-- Witness for C4: in the one-tile success run, output pixel (3, 4) is
pixel (3, 4) of the fetched tile. -/
theorem claim_C4_witness :
    (AerialImageRetrieval.max_resolution_imagery_retrieval envOneTile 0 0 1 1).retval =
      some true ∧
    envOneTile.download_image (TileSystem.tileXY_to_quadkey 0 0 TileSystem.MAXLEVEL) =
      FetchResult.ok tile0 ∧
    tile0.w = 256 ∧ tile0.h = 256 ∧
    (AerialImageRetrieval.max_resolution_imagery_retrieval envOneTile 0 0 1 1).saved.map
        (fun p => p.2.pix ((0 - 0 / 256) * 256 + 3) ((0 - 0 / 256) * 256 + 4)) =
      [tile0.pix 3 4] :=
  ⟨rfl, rfl, rfl, rfl,
    claim_C4 envOneTile 0 0 1 1 0 0 100 100 0 0 3 4 tile0 rfl rfl rfl
      (by decide) (by decide) (by decide) (by decide) rfl rfl rfl (by decide) (by decide)⟩

/-- Counterexample to C6: two successful assemblies whose composed rasters
differ (widths 256 and 512) return the identical value True to the caller,
so the return value carries neither the composed raster nor the level —
the raster is only written to disk. -/
theorem claim_C6_counterexample :
    (AerialImageRetrieval.max_resolution_imagery_retrieval envOneTile 0 0 1 1).retval =
      some true ∧
    (AerialImageRetrieval.max_resolution_imagery_retrieval envTwoTile 0 0 1 1).retval =
      some true ∧
    (AerialImageRetrieval.max_resolution_imagery_retrieval envOneTile 0 0 1 1).retval =
      (AerialImageRetrieval.max_resolution_imagery_retrieval envTwoTile 0 0 1 1).retval ∧
    (AerialImageRetrieval.max_resolution_imagery_retrieval envOneTile 0 0 1 1).saved.map
      (fun p => p.2.w) = [256] ∧
    (AerialImageRetrieval.max_resolution_imagery_retrieval envTwoTile 0 0 1 1).saved.map
      (fun p => p.2.w) = [512] :=
  ⟨rfl, rfl, rfl, rfl, rfl⟩

/-- C6 (amended): on every successful assembly the operation returns True
to the caller and saves exactly one composed raster, to the file named by
(lat1, lon1); the raster itself and the zoom level used are not part of
the returned value. -/
theorem claim_C6_amended (env : Env) (lat1 lon1 lat2 lon2 : ℚ)
    (hsucc : (AerialImageRetrieval.max_resolution_imagery_retrieval env
      lat1 lon1 lat2 lon2).retval = some true) :
    (AerialImageRetrieval.max_resolution_imagery_retrieval env lat1 lon1 lat2 lon2).saved.map
      (fun p => p.1) = [(lat1, lon1)] := by
  rw [retrieval_eq_attempt] at hsucc
  obtain ⟨-, qs, final, -, -, -, -, -, hEq⟩ :=
    attemptLevel_success_inv env lat1 lon1 lat2 lon2 TileSystem.MAXLEVEL _ _ _ _ _ _ _ _ _ _
      Prod.mk.eta.symm Prod.mk.eta.symm rfl rfl rfl rfl rfl rfl hsucc
  rw [retrieval_eq_attempt, hEq]
  simp

/-- Witness for the amended C6 at the 2×2-grid success run. -/
theorem claim_C6_witness :
    (AerialImageRetrieval.max_resolution_imagery_retrieval envTwoTile 0 0 1 1).retval =
      some true ∧
    (AerialImageRetrieval.max_resolution_imagery_retrieval envTwoTile 0 0 1 1).saved.map
      (fun p => p.1) = [((0 : ℚ), (0 : ℚ))] :=
  ⟨rfl, claim_C6_amended envTwoTile 0 0 1 1 rfl⟩

/-- Counterexample to C5: with envCrash the first coordinate reaches the
tile grid and its first download raises, i.e. the failure class the claim
labels TileUnavailable (fetch failed); the exception escapes
retrieve_images, so the second coordinate is never processed. -/
theorem claim_C5_counterexample :
    (AerialImageRetrieval.retrieve_images envCrash 200 [(5, 5), (7, 7)]).attempted ≠
      [(5, 5), (7, 7)] ∧
    AerialImageRetrieval.retrieve_images envCrash 200 [(5, 5), (7, 7)] =
      ⟨[(5, 5)], [], true⟩ := by
  have hbb : AerialImageRetrieval.calculate_bounding_box envCrash 200 5 5 =
      (400, 400, 600, 600) := by
    simp only [AerialImageRetrieval.calculate_bounding_box,
      AerialImageRetrieval.clipped_pixel_corners, TileSystem.clip, TileSystem.map_size,
      TileSystem.MAXLEVEL, envCrash]
    norm_num [min_def, max_def]
  have hp : (AerialImageRetrieval.process_one envCrash 200 (5, 5)).retval = none := by
    simp only [AerialImageRetrieval.process_one, hbb]
    rfl
  have hres : AerialImageRetrieval.retrieve_images envCrash 200 [(5, 5), (7, 7)] =
      ⟨[(5, 5)], [], true⟩ := by
    simp only [AerialImageRetrieval.retrieve_images, hp]
  refine ⟨?_, hres⟩
  rw [hres]
  decide

/-- C5 (amended): retrieve_images processes every coordinate of the list
provided each coordinate's retrieval returns normally (True or False):
failures that max_resolution_imagery_retrieval reports by returning False
(pixel-span collapse, or a placeholder tile) are recorded and do not abort
or skip the processing of any remaining coordinate.  (A download exception
— the other TileUnavailable case — propagates and aborts the batch, as the
counterexample shows.) -/
theorem claim_C5_amended (env : Env) (size_meters : ℚ) :
    ∀ coords : List (ℚ × ℚ),
      (∀ c ∈ coords, (AerialImageRetrieval.process_one env size_meters c).retval ≠ none) →
      (AerialImageRetrieval.retrieve_images env size_meters coords).attempted = coords ∧
      (AerialImageRetrieval.retrieve_images env size_meters coords).crashed = false ∧
      (AerialImageRetrieval.retrieve_images env size_meters coords).failures =
        coords.filter
          (fun c => (AerialImageRetrieval.process_one env size_meters c).retval ==
            some false) := by
  intro coords
  induction coords with
  | nil =>
    intro h
    exact ⟨rfl, rfl, rfl⟩
  | cons c rest ih =>
    intro h
    obtain ⟨ih1, ih2, ih3⟩ := ih (fun d hd => h d (List.mem_cons_of_mem _ hd))
    rcases hv : (AerialImageRetrieval.process_one env size_meters c).retval with _ | b
    · exact absurd hv (h c (List.mem_cons_self _ _))
    · cases b
      · refine ⟨?_, ?_, ?_⟩
        · simp only [AerialImageRetrieval.retrieve_images, hv]
          simp [ih1]
        · simp only [AerialImageRetrieval.retrieve_images, hv]
          simpa using ih2
        · simp only [AerialImageRetrieval.retrieve_images, hv, List.filter_cons]
          simp [hv, ih3]
      · refine ⟨?_, ?_, ?_⟩
        · simp only [AerialImageRetrieval.retrieve_images, hv]
          simp [ih1]
        · simp only [AerialImageRetrieval.retrieve_images, hv]
          simpa using ih2
        · simp only [AerialImageRetrieval.retrieve_images, hv, List.filter_cons]
          simp [hv, ih3]

/-- Witness for the amended C5: both coordinates collapse to a one-pixel
box (retrieval returns False), both are processed and both failures are
reported. -/
theorem claim_C5_witness :
    (AerialImageRetrieval.retrieve_images envConst 200 [(1, 2), (3, 4)]).attempted =
      [(1, 2), (3, 4)] ∧
    (AerialImageRetrieval.retrieve_images envConst 200 [(1, 2), (3, 4)]).crashed = false ∧
    (AerialImageRetrieval.retrieve_images envConst 200 [(1, 2), (3, 4)]).failures =
      List.filter
        (fun c => (AerialImageRetrieval.process_one envConst 200 c).retval == some false)
        [(1, 2), (3, 4)] :=
  claim_C5_amended envConst 200 [(1, 2), (3, 4)] (by decide)

/-- C9: for |lat| < 90 and box_size_meters ≥ 0, calculate_bounding_box
returns (lat1, lon1) as the upper-left and (lat2, lon2) as the lower-right
corner: lat2 ≤ lat1 and lon1 ≤ lon2, over exact real arithmetic. -/
theorem claim_C9 (lat lon box_size_meters : ℝ)
    (h1 : |lat| < 90) (h2 : 0 ≤ box_size_meters) :
    (calculate_bounding_box lat lon box_size_meters).2.2.1 ≤
      (calculate_bounding_box lat lon box_size_meters).1 ∧
    (calculate_bounding_box lat lon box_size_meters).2.1 ≤
      (calculate_bounding_box lat lon box_size_meters).2.2.2 := by
  have hpi : (0 : ℝ) < Real.pi := Real.pi_pos
  have hcos : 0 < Real.cos (radians lat) := by
    have hlt : |radians lat| < Real.pi / 2 := by
      rw [radians, abs_mul, abs_of_pos (by positivity : (0 : ℝ) < Real.pi / 180)]
      have hmul : |lat| * (Real.pi / 180) < 90 * (Real.pi / 180) :=
        mul_lt_mul_of_pos_right h1 (by positivity)
      have heq : 90 * (Real.pi / 180) = Real.pi / 2 := by ring
      linarith
    exact Real.cos_pos_of_mem_Ioo ⟨(abs_lt.mp hlt).1, (abs_lt.mp hlt).2⟩
  have hdlat : 0 ≤ box_size_meters / 6378137 := by positivity
  have hdlon : 0 ≤ box_size_meters / (6378137 * Real.cos (radians lat)) :=
    div_nonneg h2 (mul_nonneg (by norm_num) hcos.le)
  constructor
  · dsimp only [calculate_bounding_box]
    simp only [degrees]
    apply mul_le_mul_of_nonneg_right _ (by positivity)
    linarith
  · dsimp only [calculate_bounding_box]
    simp only [degrees]
    apply mul_le_mul_of_nonneg_right _ (by positivity)
    linarith

/-- Witness for C9 at the equator with a 200 m box. -/
theorem claim_C9_witness :
    |(0 : ℝ)| < 90 ∧ (0 : ℝ) ≤ 200 ∧
    ((calculate_bounding_box 0 0 200).2.2.1 ≤ (calculate_bounding_box 0 0 200).1 ∧
     (calculate_bounding_box 0 0 200).2.1 ≤ (calculate_bounding_box 0 0 200).2.2.2) :=
  ⟨by norm_num, by norm_num, claim_C9 0 0 200 (by norm_num) (by norm_num)⟩

/-- C10: the corners returned by calculate_bounding_box are symmetric
about the center over exact real arithmetic:
(lat1 + lat2) / 2 = lat and (lon1 + lon2) / 2 = lon. -/
theorem claim_C10 (lat lon box_size_meters : ℝ) (h : |lat| < 90) :
    ((calculate_bounding_box lat lon box_size_meters).1 +
      (calculate_bounding_box lat lon box_size_meters).2.2.1) / 2 = lat ∧
    ((calculate_bounding_box lat lon box_size_meters).2.1 +
      (calculate_bounding_box lat lon box_size_meters).2.2.2) / 2 = lon := by
  have hpi : Real.pi ≠ 0 := Real.pi_ne_zero
  constructor
  · dsimp only [calculate_bounding_box]
    simp only [degrees, radians]
    field_simp
    ring
  · dsimp only [calculate_bounding_box]
    simp only [degrees, radians]
    field_simp
    ring

/-- Witness for C10 at a concrete center and box size. -/
theorem claim_C10_witness :
    |(1 : ℝ)| < 90 ∧
    (((calculate_bounding_box 1 2 300).1 + (calculate_bounding_box 1 2 300).2.2.1) / 2 = 1 ∧
     ((calculate_bounding_box 1 2 300).2.1 + (calculate_bounding_box 1 2 300).2.2.2) / 2 = 2) :=
  ⟨by norm_num, claim_C10 1 2 300 (by norm_num)⟩
